import Mathlib

/-!
# Verification of the Casa yubikey-signing device library

Shallow embedding of the passkey device-signing library:

* `src/device-signing/utils/passkeyUtils.ts` — ceremony adapter and response
  sanitizer (`readLargeBlob`, `sanitizeAuthenticationResponse`, `PasskeyError`);
* `src/device-signing/passkeyDevice.ts` — versioned seed-phrase blob codec
  (`encodeSeedPhrase`, `decodeSeedPhrase`), coin dispatch (`signTransaction`),
  and xpub export (`exportXpub`).

JavaScript objects whose keys may be missing, `null`, `undefined`, or a value
are modelled by `JsProp`.  In-place mutation of the caller's argument in
`sanitizeAuthenticationResponse` is modelled by explicit state passing: the
function returns the post-call state of its argument next to its result.
External collaborators that are not part of the repository sources
(`@casa/common` encoding utilities, the `bip39` library, the COIN tag module)
are modelled from the spec; each such definition carries a doc comment saying
exactly what is modelled.
-/

deriving instance DecidableEq for Except

namespace YubikeySigning

/-! ## JavaScript object-model scaffolding -/

/-- Value of a JavaScript object property: the key may be missing from the
object (`absent`), present with value `null` (`nullVal`), present with value
`undefined` (`undefVal`), or present with a real value. -/
inductive JsProp (α : Type) where
  | absent
  | nullVal
  | undefVal
  | value (a : α)
deriving DecidableEq

/-- Reading the property yields a nullish result (`x == null` in JS, which
matches both `null` and `undefined`; reading a missing key yields
`undefined`). -/
def JsProp.isNullish {α : Type} : JsProp α → Bool
  | .value _ => false
  | _ => true

/-- The key is present in the object (`'k' in obj`), regardless of its value.
Assigning `undefined` to a property keeps the key present. -/
def JsProp.keyPresent {α : Type} : JsProp α → Bool
  | .absent => false
  | _ => true

/-- Binary buffers (`Buffer` / `ArrayBuffer`) are byte lists. -/
abbrev Bytes := List Nat

/-! ## Base64 transport encoding

Modelled from the spec: the encoding helpers live in
`@casa/common/src/lib/encodingUtils`, which is not among the repository
sources.  The spec fixes the blob wire format to
`<base64(utf8(seedPhrase))>.<versionTag>` and calls the payload encoding "a
reversible transport encoding", so we implement standard padded base64. -/

/-- Character for one 6-bit group, using the standard base64 alphabet
`A-Z a-z 0-9 + /`. -/
def sextetToChar (n : Nat) : Char :=
  if n < 26 then Char.ofNat (65 + n)
  else if n < 52 then Char.ofNat (97 + (n - 26))
  else if n < 62 then Char.ofNat (48 + (n - 52))
  else if n = 62 then '+'
  else '/'

/-- Inverse of `sextetToChar`; `none` on characters outside the alphabet. -/
def charToSextet (c : Char) : Option Nat :=
  if 65 ≤ c.toNat ∧ c.toNat ≤ 90 then some (c.toNat - 65)
  else if 97 ≤ c.toNat ∧ c.toNat ≤ 122 then some (c.toNat - 97 + 26)
  else if 48 ≤ c.toNat ∧ c.toNat ≤ 57 then some (c.toNat - 48 + 52)
  else if c = '+' then some 62
  else if c = '/' then some 63
  else none

/-- Standard padded base64 encoding of a byte list. -/
def base64EncodeBytes : Bytes → List Char
  | [] => []
  | [x] =>
      [sextetToChar (x / 4), sextetToChar (x % 4 * 16), '=', '=']
  | [x, y] =>
      [sextetToChar (x / 4), sextetToChar (x % 4 * 16 + y / 16),
       sextetToChar (y % 16 * 4), '=']
  | x :: y :: z :: rest =>
      sextetToChar (x / 4) :: sextetToChar (x % 4 * 16 + y / 16) ::
      sextetToChar (y % 16 * 4 + z / 64) :: sextetToChar (z % 64) ::
      base64EncodeBytes rest

/-- Standard padded base64 decoding; `none` on malformed input. -/
def base64DecodeBytes : List Char → Option Bytes
  | [] => some []
  | a :: b :: c :: d :: rest =>
      match charToSextet a, charToSextet b with
      | some sa, some sb =>
          if c = '=' then
            if d = '=' ∧ rest = [] then some [sa * 4 + sb / 16] else none
          else
            match charToSextet c with
            | some sc =>
                if d = '=' then
                  if rest = [] then
                    some [sa * 4 + sb / 16, sb % 16 * 16 + sc / 4]
                  else none
                else
                  match charToSextet d, base64DecodeBytes rest with
                  | some sd, some tail =>
                      some ((sa * 4 + sb / 16) :: (sb % 16 * 16 + sc / 4) ::
                            (sc % 4 * 64 + sd) :: tail)
                  | _, _ => none
            | none => none
      | _, _ => none
  | _ => none

/-- Modelled from the spec: `arrayBufferToPlaintext` from
`@casa/common/src/lib/encodingUtils` decodes a binary buffer back to the
UTF-8 text it holds.  The strings in scope (seed phrases, versioned blobs)
are ASCII, where UTF-8 bytes coincide with code points. -/
def arrayBufferToPlaintext (buffer : Bytes) : String :=
  ⟨buffer.map Char.ofNat⟩

/-- Modelled from the spec: `arrayBufferToBase64String` from
`@casa/common/src/lib/encodingUtils` base64-encodes a binary buffer. -/
def arrayBufferToBase64String (buffer : Bytes) : String :=
  ⟨base64EncodeBytes buffer⟩

/-- Modelled from the spec: `utf8ToBase64` from
`@casa/common/src/lib/encodingUtils`, i.e. `base64(utf8(s))` for the ASCII
strings in scope. -/
def utf8ToBase64 (s : String) : String :=
  ⟨base64EncodeBytes (s.data.map Char.toNat)⟩

/-- Modelled from the spec: `base64ToUtf8` from
`@casa/common/src/lib/encodingUtils`.  Behaviour on malformed base64 is not
specified by the repository sources; the model decodes leniently to the empty
string in that case.  No claim depends on the malformed case. -/
def base64ToUtf8 (s : String) : String :=
  ⟨((base64DecodeBytes s.data).getD []).map Char.ofNat⟩

/-! ## `src/device-signing/utils/passkeyUtils.ts` -/

/-- Error codes of `PasskeyErrorCodes` (passkeyUtils.ts lines 24–38).  Note
that `FAILED_READ` and `FAILED_WRITE` carry the string values
`UNABLE_TO_READ` / `UNABLE_TO_WRITE` in the source; the codes are distinct
either way, so the model keeps the member names. -/
inductive PasskeyErrorCodes where
  | INVALID_BROWSER
  | INVALID_DEVICE
  | INVALID_SUBMISSION
  | INCORRECT_STATE
  | ALREADY_REGISTERED
  | DUPLICATE
  | FAILED_READ
  | FAILED_WRITE
  | USER_EXITED
  | UNAUTHORIZED
  | NOT_ALLOWED
  | UNABLE_TO_CONNECT
  | UNKNOWN
deriving DecidableEq

/-- The `PasskeyError` class (passkeyUtils.ts lines 303–322): a message plus a
machine-checkable error code.  The optional `data` payload is never set by the
functions in scope and is omitted. -/
structure PasskeyError where
  message : String
  code : PasskeyErrorCodes
deriving DecidableEq

/-- Shape of the PRF extension output used by the source:
`prf.results.first` (passkeyUtils.ts line 225). -/
structure PrfResults where
  first : JsProp Bytes
deriving DecidableEq

structure PrfOutput where
  results : JsProp PrfResults
deriving DecidableEq

/-- Shape of the largeBlob extension output used by the source:
`largeBlob.blob` (read path) and `largeBlob.written` (write path). -/
structure LargeBlobOutput where
  blob : JsProp Bytes
  written : JsProp Bool
deriving DecidableEq

/-- The client extension results map, with the two secret-bearing extensions
the source reads and clears (passkeyUtils.ts lines 223–227). -/
structure ClientExtensionResults where
  prf : JsProp PrfOutput
  largeBlob : JsProp LargeBlobOutput
deriving DecidableEq

/-- `AuthenticationResponseJSON` as the sanitizer sees it.  The binary
response fields (`clientDataJSON`, `authenticatorData`, `signature`) are never
inspected by the functions in scope and are collapsed into one opaque string;
`type` is renamed `credentialType` (keyword clash). -/
structure AuthenticationResponseJSON where
  id : String
  rawId : String
  responseFields : String
  credentialType : String
  clientExtensionResults : ClientExtensionResults
deriving DecidableEq

/-- `PasskeySupportOutputs` (passkeyUtils.ts lines 294–299). -/
structure PasskeySupportOutputs where
  largeBlobSupported : Bool
  hasLargeBlob : Bool
  prfSupported : Bool
  prfSalt : Option String
deriving DecidableEq

/-- `SanitizedAuthenticationResponse` (passkeyUtils.ts lines 391–395): the
optional `largeBlob` / `prf` fields are only assigned when the corresponding
raw output was present. -/
structure SanitizedAuthenticationResponse where
  sanitizedAuthenticationResponse : AuthenticationResponseJSON
  largeBlob : Option String
  prf : Option String
deriving DecidableEq

/-- The check `largeBlob?.blob == null` (passkeyUtils.ts line 232): nullish if
the `largeBlob` entry itself is nullish or its `blob` property is. -/
def largeBlobBlobIsNullish : JsProp LargeBlobOutput → Bool
  | .value lb => lb.blob.isNullish
  | _ => true

/-- The check `prf?.results?.first == null` (passkeyUtils.ts line 239). -/
def prfFirstIsNullish : JsProp PrfOutput → Bool
  | .value p =>
      match p.results with
      | .value r => r.first.isNullish
      | _ => true
  | _ => true

/-- Post-ceremony processing of `readLargeBlob` (passkeyUtils.ts lines
182–212).  The ceremony itself (`navigator.credentials.get`) is an external
collaborator; this function embeds everything the source does with the
ceremony's `clientExtensionResults`: the three sequential nullish/empty
checks, each failing with `FAILED_READ`, otherwise the decoded blob text. -/
def readLargeBlobFromExtensionResults
    (clientExtensionResults : ClientExtensionResults) :
    Except PasskeyError String :=
  match clientExtensionResults.largeBlob with
  | .value largeBlob =>
      match largeBlob.blob with
      | .value blobBuffer =>
          let blobString := arrayBufferToPlaintext blobBuffer
          if blobString = "" then
            .error ⟨"Large blob decoded to empty string",
                    PasskeyErrorCodes.FAILED_READ⟩
          else
            .ok blobString
      | _ => .error ⟨"Large blob empty", PasskeyErrorCodes.FAILED_READ⟩
  | _ => .error ⟨"Unable to read large blob", PasskeyErrorCodes.FAILED_READ⟩

/-- Conditional assignment `if (largeBlob?.blob) result.largeBlob = ...`
(passkeyUtils.ts lines 269–271).  A `Buffer` is always truthy in JS, so the
guard is exactly "the blob property holds a value". -/
def extractLargeBlobField (largeBlob : JsProp LargeBlobOutput) : Option String :=
  match largeBlob with
  | .value lb =>
      match lb.blob with
      | .value buf => some (arrayBufferToPlaintext buf)
      | _ => none
  | _ => none

/-- Conditional assignment `if (prf?.results?.first != null) result.prf = ...`
(passkeyUtils.ts lines 273–275). -/
def extractPrfField (prf : JsProp PrfOutput) : Option String :=
  match prf with
  | .value p =>
      match p.results with
      | .value r =>
          match r.first with
          | .value buf => some (arrayBufferToBase64String buf)
          | _ => none
      | _ => none
  | _ => none

/-- `sanitizeAuthenticationResponse` (passkeyUtils.ts lines 218–278).  The
source mutates `authenticationResponse.clientExtensionResults` in place
(lines 247–248 assign `undefined` to `prf` and `largeBlob`) and then builds
the sanitized response as a shallow copy sharing that same mutated extension
map.  The model passes state explicitly: the first component of the result is
the post-call state of the caller's argument, the second is the thrown error
or the returned `SanitizedAuthenticationResponse`.  On the two validation
failure paths the function throws before mutating, so the post-call state is
the unchanged input.  The two `assert` calls (lines 250–257) re-check the
assignments just made and always pass. -/
def sanitizeAuthenticationResponse
    (authenticationResponse : AuthenticationResponseJSON)
    (support : Option PasskeySupportOutputs) :
    AuthenticationResponseJSON × Except PasskeyError SanitizedAuthenticationResponse :=
  let clientExtensionResults := authenticationResponse.clientExtensionResults
  let prf := clientExtensionResults.prf
  let largeBlob := clientExtensionResults.largeBlob
  if (support.elim false fun s => s.hasLargeBlob) && largeBlobBlobIsNullish largeBlob then
    (authenticationResponse,
     .error ⟨"Failed to read large blob from large-blob-holding credential",
             PasskeyErrorCodes.FAILED_READ⟩)
  else if (support.elim false fun s => s.prfSupported) && prfFirstIsNullish prf then
    (authenticationResponse,
     .error ⟨"Failed to read PRF from PRF-holding credential",
             PasskeyErrorCodes.FAILED_WRITE⟩)
  else
    let mutatedExtensionResults : ClientExtensionResults :=
      { clientExtensionResults with
          prf := JsProp.undefVal, largeBlob := JsProp.undefVal }
    let mutatedInput : AuthenticationResponseJSON :=
      { authenticationResponse with
          clientExtensionResults := mutatedExtensionResults }
    (mutatedInput,
     .ok { sanitizedAuthenticationResponse := mutatedInput
           largeBlob := extractLargeBlobField largeBlob
           prf := extractPrfField prf })

/-! ## `src/device-signing/passkeyDevice.ts` -/

/-- Plain JavaScript errors thrown by the device module: `new Error(msg)` or
the bare `new Error()` (which has an empty message and no error code).  The
device module never throws a typed `PasskeyError` itself. -/
inductive JsError where
  | plain (message : String)
deriving DecidableEq

/-- `PasskeyBlobVersion` (passkeyDevice.ts lines 30–32): a single known
version tag. -/
inductive PasskeyBlobVersion where
  | V1
deriving DecidableEq

/-- `BLOB_VERSION_CURRENT` (passkeyDevice.ts line 35). -/
def BLOB_VERSION_CURRENT : PasskeyBlobVersion := PasskeyBlobVersion.V1

/-- `SEED_VERSION_DELIMITER` (passkeyDevice.ts line 34). -/
def SEED_VERSION_DELIMITER : Char := '.'

/-- String value of a version tag (`PasskeyBlobVersion.V1 = 'V1'`). -/
def versionTag : PasskeyBlobVersion → List Char
  | .V1 => ['V', '1']

/-- JavaScript `String.prototype.split` on a one-character separator,
modelled on the character list: `"a.b.c".split('.') = ["a","b","c"]`,
`"x".split('.') = ["x"]`, `"".split('.') = [""]`. -/
def splitOnChar (delim : Char) : List Char → List (List Char)
  | [] => [[]]
  | c :: cs =>
      let rest := splitOnChar delim cs
      if c = delim then [] :: rest
      else
        match rest with
        | r :: rs => (c :: r) :: rs
        | [] => [[c]]

/-- Characters that can occur in a BIP39 mnemonic: lowercase ASCII letters. -/
def isLowerAlpha (c : Char) : Bool :=
  97 ≤ c.toNat && c.toNat ≤ 122

/-- Mnemonic charset: lowercase letters and the word separator (space). -/
def validSeedChar (c : Char) : Bool :=
  isLowerAlpha c || c.toNat == 32

/-- Modelled from the spec: `bip39.validateMnemonic` is an external library
(the spec's "fixed wordlist standard, validated for checksum correctness").
The model checks the structural conditions every valid BIP39 mnemonic
satisfies: the string consists of lowercase-ASCII words separated by spaces,
the words are nonempty, and the word count is one of 12/15/18/21/24.  This
over-approximates the real check (it omits wordlist membership and the
checksum): every really-valid mnemonic passes it, and every string containing
a character outside `[a-z ]` — in particular every versioned blob, which
contains the delimiter `.` — fails it.  The claims below only rely on these
two directions. -/
def validateMnemonic (s : String) : Bool :=
  s.data.all validSeedChar &&
  (splitOnChar ' ' s.data).all (fun w => !w.isEmpty) &&
  ((splitOnChar ' ' s.data).length == 12 ||
   (splitOnChar ' ' s.data).length == 15 ||
   (splitOnChar ' ' s.data).length == 18 ||
   (splitOnChar ' ' s.data).length == 21 ||
   (splitOnChar ' ' s.data).length == 24)

/-- `isValidSeedPhrase` (passkeyDevice.ts lines 363–365). -/
def isValidSeedPhrase (seedPhrase : String) : Bool :=
  validateMnemonic seedPhrase

/-- `encodeSeedPhrase` (passkeyDevice.ts lines 367–387): validates the phrase
(`Invalid seed phrase` otherwise), then for `V1` returns
`utf8ToBase64(seedPhrase) + '.' + 'V1'`.  The `default` branch throwing
`Unsupported seed phrase version` is unreachable while the enum has the
single member `V1`, which the Lean match reflects. -/
def encodeSeedPhrase (seedPhrase : String)
    (blobVersion : PasskeyBlobVersion := BLOB_VERSION_CURRENT) :
    Except JsError String :=
  if !isValidSeedPhrase seedPhrase then
    .error (JsError.plain "Invalid seed phrase")
  else
    match blobVersion with
    | PasskeyBlobVersion.V1 =>
        .ok ⟨(utf8ToBase64 seedPhrase).data ++
             SEED_VERSION_DELIMITER :: versionTag blobVersion⟩

/-- Result of `decodeSeedPhrase`.  The source's `console.warn` on the legacy
unversioned path (passkeyDevice.ts lines 394–398) is modelled as the
`legacyWarning` flag. -/
structure DecodedSeedPhrase where
  seedPhrase : String
  version : Option PasskeyBlobVersion
  legacyWarning : Bool
deriving DecidableEq

/-- Version-dispatch half of `decodeSeedPhrase` (passkeyDevice.ts lines
403–411): the destructuring `[base64Seed, version] = split(...)` hands this
the first segment and the (possibly `undefined`) second segment; anything
other than `'V1'` throws `Unsupported seed phrase version`, else the payload
is transport-decoded. -/
def decodeVersioned (base64Seed : String) (version : Option String) :
    Except JsError DecodedSeedPhrase :=
  if version ≠ some "V1" then
    .error (JsError.plain "Unsupported seed phrase version")
  else
    .ok ⟨base64ToUtf8 base64Seed, some PasskeyBlobVersion.V1, false⟩

/-- `decodeSeedPhrase` (passkeyDevice.ts lines 389–412): a whole-string valid
mnemonic is returned as-is with no version and a compatibility warning;
otherwise the string is split on `'.'` and the first two segments are
destructured as payload and version. -/
def decodeSeedPhrase (encodedSeedPhrase : String) :
    Except JsError DecodedSeedPhrase :=
  if isValidSeedPhrase encodedSeedPhrase then
    .ok ⟨encodedSeedPhrase, none, true⟩
  else
    let parts := splitOnChar SEED_VERSION_DELIMITER encodedSeedPhrase.data
    decodeVersioned ⟨parts.headD []⟩ ((parts[1]?).map String.mk)

/-- Modelled from the spec: the COIN tag module
(`src/device-signing/types/coin`) is not among the repository sources.  Spec
§9 fixes the closed variant set `{Btc, TBtc, Eth, TEth, EthContract,
TEthContract}`; callers in `useWebWallet.tsx` pass the uppercase tags `'BTC'`
and `'ETH'`, and `signTransaction` compares `coin.toUpperCase()` against the
members, so the tags are uppercase strings.  The exact contract-variant tags
are not recoverable from the sources; the claims below only need the known
set not to contain arbitrary unknown identifiers such as `'DOGE'`. -/
def COIN.btc : String := "BTC"

def COIN.tbtc : String := "TBTC"

def COIN.eth : String := "ETH"

def COIN.teth : String := "TETH"

def COIN.ethC : String := "ETH_C"

def COIN.tethC : String := "TETH_C"

/-- The six known coin tags, in the order of the switch cases. -/
def knownCoinTags : List String :=
  [COIN.btc, COIN.tbtc, COIN.ethC, COIN.tethC, COIN.eth, COIN.teth]

/-- JavaScript `String.prototype.toUpperCase` restricted to ASCII, which is
the character range of coin tags. -/
def jsToUpperCase (s : String) : String :=
  ⟨s.data.map fun c =>
    if 97 ≤ c.toNat ∧ c.toNat ≤ 122 then Char.ofNat (c.toNat - 32) else c⟩

/-- Which signing routine a coin dispatches to. -/
inductive SignTransactionRoute where
  | bitcoinPsbt
  | gnosisSafe
deriving DecidableEq

/-- Coin dispatch of `signTransaction` (passkeyDevice.ts lines 212–226): the
switch on `params.coin.toUpperCase()` routes the Bitcoin family to
`getSignedBitcoinTransaction` and the Ethereum family to
`getGnosisSafeSignature`; every other identifier falls through to the bare
`throw new Error()` on line 225 — an untyped error with empty message and no
error code.  The switch runs before any ceremony, so unknown coins never
reach the authenticator. -/
def signTransactionDispatch (coin : String) :
    Except JsError SignTransactionRoute :=
  if jsToUpperCase coin = COIN.btc ∨ jsToUpperCase coin = COIN.tbtc then
    .ok SignTransactionRoute.bitcoinPsbt
  else if jsToUpperCase coin = COIN.ethC ∨ jsToUpperCase coin = COIN.tethC ∨
          jsToUpperCase coin = COIN.eth ∨ jsToUpperCase coin = COIN.teth then
    .ok SignTransactionRoute.gnosisSafe
  else
    .error (JsError.plain "")

/-- Which extended public key `exportXpub` returns: the unscoped master
node's neutered xpub, or the neutered xpub of the hardened subtree
`m/purpose'`.  The BIP32 derivation itself is the external `bip32` library;
the claim about `exportXpub` concerns only which of the two nodes is
selected. -/
inductive XpubSelection where
  | masterNeutered
  | hardenedPurposeNeutered (purpose : Int)
deriving DecidableEq

/-- JavaScript falsiness of the optional numeric parameter
`hardenedKeyPathPurpose : number | null | undefined`: `undefined`, `null` and
`0` are falsy. -/
def jsFalsyNumber (value : Option Int) : Bool :=
  match value with
  | none => true
  | some n => n == 0

/-- Xpub selection of `exportXpub` (passkeyDevice.ts lines 110–131): the
source tests `if (!params.hardenedKeyPathPurpose)` — a falsiness check — and
returns the master node's neutered xpub in that case, else derives
`m/${purpose}'` and returns that subtree's neutered xpub. -/
def exportXpubSelection (hardenedKeyPathPurpose : Option Int) : XpubSelection :=
  if jsFalsyNumber hardenedKeyPathPurpose then
    XpubSelection.masterNeutered
  else
    XpubSelection.hardenedPurposeNeutered (hardenedKeyPathPurpose.getD 0)

/-! ## Supporting lemmas -/

/-- Sextet encoding facts for the base64 alphabet: `charToSextet` inverts
`sextetToChar`, and no alphabet character is `=` or the blob delimiter. -/
theorem sextet_props : ∀ n, n < 64 →
    charToSextet (sextetToChar n) = some n ∧
    sextetToChar n ≠ '=' ∧ sextetToChar n ≠ '.' := by decide

/-- Decoding inverts encoding on byte lists. -/
theorem base64DecodeBytes_encodeBytes :
    ∀ bytes : Bytes, (∀ b ∈ bytes, b < 256) →
      base64DecodeBytes (base64EncodeBytes bytes) = some bytes
  | [], _ => rfl
  | [x], h => by
      have hx : x < 256 := h x (by simp)
      obtain ⟨e1, -, -⟩ := sextet_props (x / 4) (by omega)
      obtain ⟨e2, n2, -⟩ := sextet_props (x % 4 * 16) (by omega)
      simp only [base64EncodeBytes, base64DecodeBytes, e1, e2, if_pos rfl,
        and_self, reduceIte, Option.some.injEq, List.cons.injEq, and_true]
      omega
  | [x, y], h => by
      have hx : x < 256 := h x (by simp)
      have hy : y < 256 := h y (by simp)
      obtain ⟨e1, -, -⟩ := sextet_props (x / 4) (by omega)
      obtain ⟨e2, -, -⟩ := sextet_props (x % 4 * 16 + y / 16) (by omega)
      obtain ⟨e3, n3, -⟩ := sextet_props (y % 16 * 4) (by omega)
      simp only [base64EncodeBytes, base64DecodeBytes, e1, e2, e3, if_neg n3,
        if_pos rfl, reduceIte, Option.some.injEq, List.cons.injEq, and_true]
      constructor <;> omega
  | x :: y :: z :: rest, h => by
      have hx : x < 256 := h x (by simp)
      have hy : y < 256 := h y (by simp)
      have hz : z < 256 := h z (by simp)
      have ih := base64DecodeBytes_encodeBytes rest
        (fun b hb => h b (by simp [hb]))
      obtain ⟨e1, -, -⟩ := sextet_props (x / 4) (by omega)
      obtain ⟨e2, -, -⟩ := sextet_props (x % 4 * 16 + y / 16) (by omega)
      obtain ⟨e3, n3, -⟩ := sextet_props (y % 16 * 4 + z / 64) (by omega)
      obtain ⟨e4, n4, -⟩ := sextet_props (z % 64) (by omega)
      simp only [base64EncodeBytes, base64DecodeBytes, e1, e2, e3, e4, ih,
        if_neg n3, if_neg n4, Option.some.injEq, List.cons.injEq, and_true]
      refine ⟨by omega, by omega, by omega⟩

/-- The base64 encoding of a byte list never contains the blob delimiter. -/
theorem base64EncodeBytes_no_dot :
    ∀ bytes : Bytes, (∀ b ∈ bytes, b < 256) →
      '.' ∉ base64EncodeBytes bytes
  | [], _ => by simp [base64EncodeBytes]
  | [x], h => by
      have hx : x < 256 := h x (by simp)
      obtain ⟨-, -, d1⟩ := sextet_props (x / 4) (by omega)
      obtain ⟨-, -, d2⟩ := sextet_props (x % 4 * 16) (by omega)
      simp only [base64EncodeBytes, List.mem_cons, List.not_mem_nil, or_false]
      intro hc
      rcases hc with hc | hc | hc | hc <;>
        first
          | exact absurd hc.symm (by assumption)
          | exact absurd hc (by decide)
  | [x, y], h => by
      have hx : x < 256 := h x (by simp)
      have hy : y < 256 := h y (by simp)
      obtain ⟨-, -, d1⟩ := sextet_props (x / 4) (by omega)
      obtain ⟨-, -, d2⟩ := sextet_props (x % 4 * 16 + y / 16) (by omega)
      obtain ⟨-, -, d3⟩ := sextet_props (y % 16 * 4) (by omega)
      simp only [base64EncodeBytes, List.mem_cons, List.not_mem_nil, or_false]
      intro hc
      rcases hc with hc | hc | hc | hc <;>
        first
          | exact absurd hc.symm (by assumption)
          | exact absurd hc (by decide)
  | x :: y :: z :: rest, h => by
      have hx : x < 256 := h x (by simp)
      have hy : y < 256 := h y (by simp)
      have hz : z < 256 := h z (by simp)
      have ih := base64EncodeBytes_no_dot rest (fun b hb => h b (by simp [hb]))
      obtain ⟨-, -, d1⟩ := sextet_props (x / 4) (by omega)
      obtain ⟨-, -, d2⟩ := sextet_props (x % 4 * 16 + y / 16) (by omega)
      obtain ⟨-, -, d3⟩ := sextet_props (y % 16 * 4 + z / 64) (by omega)
      obtain ⟨-, -, d4⟩ := sextet_props (z % 64) (by omega)
      simp only [base64EncodeBytes, List.mem_cons]
      intro hc
      rcases hc with hc | hc | hc | hc | hc <;>
        first
          | exact absurd hc.symm (by assumption)
          | exact ih hc

/-- A list without the separator splits into itself. -/
theorem splitOnChar_of_not_mem {d : Char} :
    ∀ {l : List Char}, d ∉ l → splitOnChar d l = [l]
  | [], _ => rfl
  | c :: cs, h => by
      have hcd : ¬ c = d := fun e => h (e ▸ List.mem_cons_self c cs)
      have ih := splitOnChar_of_not_mem (l := cs)
        (fun hm => h (List.mem_cons_of_mem c hm))
      simp [splitOnChar, hcd, ih]

/-- Splitting a list that starts with a separator-free prefix peels that
prefix off as the first segment. -/
theorem splitOnChar_append {d : Char} :
    ∀ {a : List Char}, d ∉ a → ∀ b : List Char,
      splitOnChar d (a ++ d :: b) = a :: splitOnChar d b
  | [], _, b => by simp [splitOnChar]
  | c :: cs, h, b => by
      have hcd : ¬ c = d := fun e => h (e ▸ List.mem_cons_self c cs)
      have ih := splitOnChar_append (a := cs)
        (fun hm => h (List.mem_cons_of_mem c hm)) b
      simp [splitOnChar, hcd, ih]

/-- Any string containing the blob delimiter fails the mnemonic check:
the delimiter is outside the mnemonic charset. -/
theorem validateMnemonic_eq_false_of_dot {s : String} (h : '.' ∈ s.data) :
    validateMnemonic s = false := by
  have hall : s.data.all validSeedChar = false := by
    apply Bool.eq_false_iff.mpr
    intro hall'
    have := List.all_eq_true.mp hall' '.' h
    simp [validSeedChar, isLowerAlpha] at this
  simp [validateMnemonic, hall]

/-- Mnemonic-charset characters are single bytes. -/
theorem toNat_lt_of_validSeedChar {c : Char} (h : validSeedChar c = true) :
    c.toNat < 256 := by
  simp only [validSeedChar, isLowerAlpha, Bool.or_eq_true, Bool.and_eq_true,
    decide_eq_true_eq, beq_iff_eq] at h
  omega

/-! ## Claim theorems: blob codec -/

/-- C3: for every valid BIP39 mnemonic `m`, decoding the blob produced by
encoding `m` at the current version `V1` returns exactly `(m, V1)`:
`decodeSeedPhrase (encodeSeedPhrase m V1)` yields seed phrase `m`, version
`V1` (and no legacy warning). -/
theorem c3_decode_encode_roundtrip (m : String)
    (h : validateMnemonic m = true) :
    (encodeSeedPhrase m PasskeyBlobVersion.V1).bind decodeSeedPhrase
      = Except.ok ⟨m, some PasskeyBlobVersion.V1, false⟩ := by
  have hchars : ∀ c ∈ m.data, validSeedChar c = true := by
    intro c hc
    have h' := h
    simp only [validateMnemonic, Bool.and_eq_true] at h'
    exact List.all_eq_true.mp h'.1.1 c hc
  have hbs : ∀ b ∈ m.data.map Char.toNat, b < 256 := by
    intro b hb
    obtain ⟨c, hc, rfl⟩ := List.mem_map.mp hb
    exact toNat_lt_of_validSeedChar (hchars c hc)
  have hdot : '.' ∉ base64EncodeBytes (m.data.map Char.toNat) :=
    base64EncodeBytes_no_dot _ hbs
  have hdec : base64DecodeBytes (base64EncodeBytes (m.data.map Char.toNat))
      = some (m.data.map Char.toNat) :=
    base64DecodeBytes_encodeBytes _ hbs
  rw [encodeSeedPhrase, if_neg (by simp [isValidSeedPhrase, h])]
  show decodeSeedPhrase
      ⟨base64EncodeBytes (m.data.map Char.toNat) ++ '.' :: ['V', '1']⟩ = _
  have hinvalid : isValidSeedPhrase
      ⟨base64EncodeBytes (m.data.map Char.toNat) ++ '.' :: ['V', '1']⟩
      = false := by
    apply validateMnemonic_eq_false_of_dot
    simp
  have hsplit : splitOnChar SEED_VERSION_DELIMITER
      (base64EncodeBytes (m.data.map Char.toNat) ++ '.' :: ['V', '1'])
      = [base64EncodeBytes (m.data.map Char.toNat), ['V', '1']] := by
    rw [show SEED_VERSION_DELIMITER = '.' from rfl,
      splitOnChar_append hdot, splitOnChar_of_not_mem (by decide)]
  simp only [decodeSeedPhrase, hinvalid, Bool.false_eq_true, if_false, hsplit]
  simp only [List.headD, List.getElem?_cons_succ, List.getElem?_cons_zero,
    Option.map_some, decodeVersioned]
  rw [if_neg (by decide)]
  simp only [base64ToUtf8, hdec, Option.getD_some, List.map_map,
    Except.ok.injEq, DecodedSeedPhrase.mk.injEq, and_true]
  have hmap : List.map (Char.ofNat ∘ Char.toNat) m.data = m.data := by
    simp [Function.comp_def, Char.ofNat_toNat]
  rw [hmap]

/-- C3 witness: the standard BIP39 test-vector mnemonic round-trips through
the `V1` codec. -/
theorem c3_witness :
    validateMnemonic "abandon abandon abandon abandon abandon abandon abandon abandon abandon abandon abandon about" = true ∧
    (encodeSeedPhrase "abandon abandon abandon abandon abandon abandon abandon abandon abandon abandon abandon about" PasskeyBlobVersion.V1).bind decodeSeedPhrase
      = Except.ok ⟨"abandon abandon abandon abandon abandon abandon abandon abandon abandon abandon abandon about", some PasskeyBlobVersion.V1, false⟩ :=
  ⟨by decide, c3_decode_encode_roundtrip _ (by decide)⟩

/-- C4 counterexample: the claim quantifies over every delimited blob whose
version tag — per the spec, the segment after the LAST delimiter — is
unknown.  The input `"eW8=.V1.JUNK"` has the unknown trailing tag `JUNK` and
is not a valid mnemonic, yet `decodeSeedPhrase` succeeds and returns the
seed phrase `"yo"`: the code destructures the segments after the FIRST
delimiter, sees `V1`, and ignores the rest. -/
theorem c4_counterexample :
    decodeSeedPhrase "eW8=.V1.JUNK"
      = Except.ok ⟨"yo", some PasskeyBlobVersion.V1, false⟩ := by decide

/-- C4 amended: for every input that is not a valid mnemonic and whose
segment after the FIRST delimiter (the segment the destructuring
`[base64Seed, version] = split('.')` binds to `version`, `undefined` when
there is no delimiter) is not the known tag `V1`, `decodeSeedPhrase` fails
with the `Unsupported seed phrase version` error and never returns a seed
phrase. -/
theorem c4_unknown_version_fails_closed (s : String)
    (hvalid : isValidSeedPhrase s = false)
    (hver : ((splitOnChar SEED_VERSION_DELIMITER s.data)[1]?).map String.mk
      ≠ some "V1") :
    decodeSeedPhrase s
      = Except.error (JsError.plain "Unsupported seed phrase version") := by
  simp only [decodeSeedPhrase, hvalid, Bool.false_eq_true, if_false,
    decodeVersioned, if_pos hver]

/-- C4 witness: `"eW8=.V9"` carries the unknown version tag `V9` and decoding
it fails closed. -/
theorem c4_witness :
    isValidSeedPhrase "eW8=.V9" = false ∧
    decodeSeedPhrase "eW8=.V9"
      = Except.error (JsError.plain "Unsupported seed phrase version") :=
  ⟨by decide, c4_unknown_version_fails_closed _ (by decide) (by decide)⟩

/-- C6 counterexample: the claim says the segment after the LAST delimiter is
the version tag, so `"aGk=.V1.x"` — trailing tag `x`, unknown — would have to
be rejected with `UnsupportedVersion`.  Instead `decodeSeedPhrase` takes the
segment after the FIRST delimiter (`V1`), accepts the blob and returns the
decoded payload `"hi"`. -/
theorem c6_counterexample :
    decodeSeedPhrase "aGk=.V1.x"
      = Except.ok ⟨"hi", some PasskeyBlobVersion.V1, false⟩ := by decide

/-- C6 amended: for every encoded blob that is not a valid mnemonic,
`decodeSeedPhrase` treats the segment after the FIRST delimiter as the
version tag (verbatim) and the segment before the first delimiter as the
payload; any segments after a second delimiter are ignored.  Stated for a
delimiter-free payload `a` and tag `b`: with one delimiter, and with a
second delimiter followed by an arbitrary tail `t`, decoding is exactly the
version dispatch on payload `a` and version `b`. -/
theorem c6_split_uses_first_delimiter (a b t : List Char)
    (ha : '.' ∉ a) (hb : '.' ∉ b) :
    decodeSeedPhrase ⟨a ++ '.' :: b⟩ = decodeVersioned ⟨a⟩ (some ⟨b⟩) ∧
    decodeSeedPhrase ⟨a ++ '.' :: (b ++ '.' :: t)⟩
      = decodeVersioned ⟨a⟩ (some ⟨b⟩) := by
  constructor
  · have hinvalid : isValidSeedPhrase ⟨a ++ '.' :: b⟩ = false := by
      apply validateMnemonic_eq_false_of_dot
      simp
    have hsplit : splitOnChar SEED_VERSION_DELIMITER (a ++ '.' :: b)
        = [a, b] := by
      rw [show SEED_VERSION_DELIMITER = '.' from rfl,
        splitOnChar_append ha, splitOnChar_of_not_mem hb]
    simp only [decodeSeedPhrase, hinvalid, Bool.false_eq_true, if_false,
      hsplit, List.headD, List.getElem?_cons_succ, List.getElem?_cons_zero,
      Option.map_some]
    rfl
  · have hinvalid : isValidSeedPhrase ⟨a ++ '.' :: (b ++ '.' :: t)⟩
        = false := by
      apply validateMnemonic_eq_false_of_dot
      simp
    have hsplit : splitOnChar SEED_VERSION_DELIMITER
        (a ++ '.' :: (b ++ '.' :: t))
        = a :: b :: splitOnChar '.' t := by
      rw [show SEED_VERSION_DELIMITER = '.' from rfl,
        splitOnChar_append ha, splitOnChar_append hb]
    simp only [decodeSeedPhrase, hinvalid, Bool.false_eq_true, if_false,
      hsplit, List.headD, List.getElem?_cons_succ, List.getElem?_cons_zero,
      Option.map_some]
    rfl

/-- C6 witness: payload `x`, version segment `V1`, ignored trailing segment
`z`. -/
theorem c6_witness :
    ('.' ∉ ['x']) ∧
    decodeSeedPhrase ⟨['x'] ++ '.' :: ['V', '1']⟩
      = decodeVersioned ⟨['x']⟩ (some ⟨['V', '1']⟩) ∧
    decodeSeedPhrase ⟨['x'] ++ '.' :: (['V', '1'] ++ '.' :: ['z'])⟩
      = decodeVersioned ⟨['x']⟩ (some ⟨['V', '1']⟩) :=
  ⟨by decide,
   (c6_split_uses_first_delimiter ['x'] ['V', '1'] ['z']
      (by decide) (by decide)).1,
   (c6_split_uses_first_delimiter ['x'] ['V', '1'] ['z']
      (by decide) (by decide)).2⟩

/-- C7: every input that is itself a valid mnemonic is returned as-is, with
no version, and with the compatibility warning emitted (the legacy
unversioned path) — a non-fatal success, not an error. -/
theorem c7_legacy_mnemonic_accepted_with_warning (s : String)
    (h : validateMnemonic s = true) :
    decodeSeedPhrase s = Except.ok ⟨s, none, true⟩ := by
  simp only [decodeSeedPhrase, isValidSeedPhrase, h, if_true]

/-- C7 witness: a standard valid BIP39 mnemonic is accepted on the legacy
path with the warning flag set. -/
theorem c7_witness :
    validateMnemonic "legal winner thank year wave sausage worth useful legal winner thank yellow" = true ∧
    decodeSeedPhrase "legal winner thank year wave sausage worth useful legal winner thank yellow"
      = Except.ok ⟨"legal winner thank year wave sausage worth useful legal winner thank yellow", none, true⟩ :=
  ⟨by decide, c7_legacy_mnemonic_accepted_with_warning _ (by decide)⟩

/-! ## Claim theorems: response sanitizer -/

/-- C1: for every authentication result whose extension results carry a
non-empty `prf` and/or a non-empty `largeBlob` sub-result — either one alone
or both — and for which the capability checks pass (the call succeeds), the
sanitized copy has both sub-results replaced by the explicit empty marker
`undefined`: the keys are still present in the extension map, not omitted. -/
theorem c1_sanitized_extension_results_are_explicit_empty_markers
    (ar : AuthenticationResponseJSON) (support : Option PasskeySupportOutputs)
    (post : AuthenticationResponseJSON) (r : SanitizedAuthenticationResponse)
    (_hne : (∃ p, ar.clientExtensionResults.prf = JsProp.value p) ∨
            (∃ l, ar.clientExtensionResults.largeBlob = JsProp.value l))
    (hok : sanitizeAuthenticationResponse ar support = (post, Except.ok r)) :
    r.sanitizedAuthenticationResponse.clientExtensionResults.prf
        = JsProp.undefVal ∧
    r.sanitizedAuthenticationResponse.clientExtensionResults.largeBlob
        = JsProp.undefVal ∧
    (r.sanitizedAuthenticationResponse.clientExtensionResults.prf).keyPresent
        = true ∧
    (r.sanitizedAuthenticationResponse.clientExtensionResults.largeBlob).keyPresent
        = true := by
  simp only [sanitizeAuthenticationResponse] at hok
  split at hok
  · simp at hok
  · split at hok
    · simp at hok
    · simp only [Prod.mk.injEq, Except.ok.injEq] at hok
      obtain ⟨-, rfl⟩ := hok
      exact ⟨rfl, rfl, rfl, rfl⟩

/-- C1 witness: a largeBlob-only response (PRF sub-result absent, blob
`"hi"` present — the ordinary read-ceremony shape) sanitizes to explicit
`undefined` markers with both keys present. -/
theorem c1_witness :
    sanitizeAuthenticationResponse
        ⟨"id", "rawId", "resp", "public-key",
         ⟨JsProp.absent,
          JsProp.value ⟨JsProp.value [104, 105], JsProp.absent⟩⟩⟩ none
      = (⟨"id", "rawId", "resp", "public-key",
          ⟨JsProp.undefVal, JsProp.undefVal⟩⟩,
         Except.ok
           ⟨⟨"id", "rawId", "resp", "public-key",
             ⟨JsProp.undefVal, JsProp.undefVal⟩⟩, some "hi", none⟩) ∧
    ((⟨⟨"id", "rawId", "resp", "public-key",
        ⟨JsProp.undefVal, JsProp.undefVal⟩⟩, some "hi", none⟩ :
        SanitizedAuthenticationResponse)).sanitizedAuthenticationResponse.clientExtensionResults.prf
        = JsProp.undefVal ∧
    ((⟨⟨"id", "rawId", "resp", "public-key",
        ⟨JsProp.undefVal, JsProp.undefVal⟩⟩, some "hi", none⟩ :
        SanitizedAuthenticationResponse)).sanitizedAuthenticationResponse.clientExtensionResults.largeBlob
        = JsProp.undefVal :=
  ⟨by decide,
   (c1_sanitized_extension_results_are_explicit_empty_markers
      ⟨"id", "rawId", "resp", "public-key",
       ⟨JsProp.absent,
        JsProp.value ⟨JsProp.value [104, 105], JsProp.absent⟩⟩⟩ none
      ⟨"id", "rawId", "resp", "public-key",
       ⟨JsProp.undefVal, JsProp.undefVal⟩⟩
      ⟨⟨"id", "rawId", "resp", "public-key",
        ⟨JsProp.undefVal, JsProp.undefVal⟩⟩, some "hi", none⟩
      (Or.inr ⟨⟨JsProp.value [104, 105], JsProp.absent⟩, rfl⟩)
      (by decide)).1,
   (c1_sanitized_extension_results_are_explicit_empty_markers
      ⟨"id", "rawId", "resp", "public-key",
       ⟨JsProp.absent,
        JsProp.value ⟨JsProp.value [104, 105], JsProp.absent⟩⟩⟩ none
      ⟨"id", "rawId", "resp", "public-key",
       ⟨JsProp.undefVal, JsProp.undefVal⟩⟩
      ⟨⟨"id", "rawId", "resp", "public-key",
        ⟨JsProp.undefVal, JsProp.undefVal⟩⟩, some "hi", none⟩
      (Or.inr ⟨⟨JsProp.value [104, 105], JsProp.absent⟩, rfl⟩)
      (by decide)).2.1⟩

/-- C5 counterexample: with a profile claiming both `hasLargeBlob` and
`prfSupported` and a response missing both outputs, the `prfSupported` half
of the claim demands a `FailedWrite` failure, but the call fails with
`FAILED_READ` — the largeBlob validation runs first. -/
theorem c5_counterexample :
    sanitizeAuthenticationResponse
        ⟨"i", "r", "x", "t", ⟨JsProp.absent, JsProp.absent⟩⟩
        (some ⟨false, true, true, none⟩)
      = (⟨"i", "r", "x", "t", ⟨JsProp.absent, JsProp.absent⟩⟩,
         Except.error
           ⟨"Failed to read large blob from large-blob-holding credential",
            PasskeyErrorCodes.FAILED_READ⟩) ∧
    PasskeyErrorCodes.FAILED_READ ≠ PasskeyErrorCodes.FAILED_WRITE := by
  decide

/-- C5 amended: if the profile claims `hasLargeBlob` and the largeBlob output
is nullish, the call fails with `FAILED_READ`; if it claims `prfSupported`
and the PRF output is nullish, the call fails with `FAILED_WRITE` — provided
the largeBlob validation did not already fail, since that check runs first
and takes precedence when both fail.  On either failure the input is
returned unchanged: the validations happen before any sanitization output is
produced. -/
theorem c5_capability_validation_order
    (ar : AuthenticationResponseJSON) (s : PasskeySupportOutputs) :
    (s.hasLargeBlob = true →
      largeBlobBlobIsNullish ar.clientExtensionResults.largeBlob = true →
      sanitizeAuthenticationResponse ar (some s)
        = (ar, Except.error
            ⟨"Failed to read large blob from large-blob-holding credential",
             PasskeyErrorCodes.FAILED_READ⟩)) ∧
    (s.prfSupported = true →
      prfFirstIsNullish ar.clientExtensionResults.prf = true →
      ¬ (s.hasLargeBlob = true ∧
         largeBlobBlobIsNullish ar.clientExtensionResults.largeBlob = true) →
      sanitizeAuthenticationResponse ar (some s)
        = (ar, Except.error
            ⟨"Failed to read PRF from PRF-holding credential",
             PasskeyErrorCodes.FAILED_WRITE⟩)) := by
  constructor
  · intro h1 h2
    simp only [sanitizeAuthenticationResponse, Option.elim, h1, h2,
      Bool.and_self, if_true]
  · intro h1 h2 h3
    have hcond : (s.hasLargeBlob &&
        largeBlobBlobIsNullish ar.clientExtensionResults.largeBlob) = false := by
      cases hA : s.hasLargeBlob <;>
        cases hB : largeBlobBlobIsNullish ar.clientExtensionResults.largeBlob <;>
          simp_all
    simp only [sanitizeAuthenticationResponse, Option.elim, hcond,
      Bool.false_eq_true, if_false, h1, h2, Bool.and_self, if_true]

/-- C5 witness: both validation failures at concrete inputs — a claimed but
missing blob fails with `FAILED_READ`; a claimed but missing PRF (with the
blob validation passing) fails with `FAILED_WRITE`. -/
theorem c5_witness :
    sanitizeAuthenticationResponse
        ⟨"a", "b", "c", "d", ⟨JsProp.absent, JsProp.absent⟩⟩
        (some ⟨false, true, false, none⟩)
      = (⟨"a", "b", "c", "d", ⟨JsProp.absent, JsProp.absent⟩⟩,
         Except.error
           ⟨"Failed to read large blob from large-blob-holding credential",
            PasskeyErrorCodes.FAILED_READ⟩) ∧
    sanitizeAuthenticationResponse
        ⟨"a", "b", "c", "d", ⟨JsProp.absent, JsProp.absent⟩⟩
        (some ⟨false, false, true, none⟩)
      = (⟨"a", "b", "c", "d", ⟨JsProp.absent, JsProp.absent⟩⟩,
         Except.error
           ⟨"Failed to read PRF from PRF-holding credential",
            PasskeyErrorCodes.FAILED_WRITE⟩) :=
  ⟨(c5_capability_validation_order
      ⟨"a", "b", "c", "d", ⟨JsProp.absent, JsProp.absent⟩⟩
      ⟨false, true, false, none⟩).1 rfl (by decide),
   (c5_capability_validation_order
      ⟨"a", "b", "c", "d", ⟨JsProp.absent, JsProp.absent⟩⟩
      ⟨false, false, true, none⟩).2 rfl (by decide) (by decide)⟩

/-- C9: `sanitizeAuthenticationResponse` is not pure in its input: on
success the caller's argument has been mutated in place — its extension map's
`prf` and `largeBlob` sub-results are gone (overwritten with `undefined`) —
and the sanitized copy shares exactly that mutated extension map; on the
validation-failure paths the input is left unmodified. -/
theorem c9_sanitize_mutates_input_in_place
    (ar : AuthenticationResponseJSON) (support : Option PasskeySupportOutputs) :
    (∀ post r,
      sanitizeAuthenticationResponse ar support = (post, Except.ok r) →
      post.clientExtensionResults.prf = JsProp.undefVal ∧
      post.clientExtensionResults.largeBlob = JsProp.undefVal ∧
      post.clientExtensionResults
        = r.sanitizedAuthenticationResponse.clientExtensionResults) ∧
    (∀ post e,
      sanitizeAuthenticationResponse ar support = (post, Except.error e) →
      post = ar) := by
  constructor
  · intro post r hok
    simp only [sanitizeAuthenticationResponse] at hok
    split at hok
    · simp at hok
    · split at hok
      · simp at hok
      · simp only [Prod.mk.injEq, Except.ok.injEq] at hok
        obtain ⟨rfl, rfl⟩ := hok
        exact ⟨rfl, rfl, rfl⟩
  · intro post e herr
    simp only [sanitizeAuthenticationResponse] at herr
    split at herr
    · simp only [Prod.mk.injEq] at herr
      exact herr.1.symm
    · split at herr
      · simp only [Prod.mk.injEq] at herr
        exact herr.1.symm
      · simp at herr

/-- C9 witness: on a successful call the caller's object has lost both
sub-results and shares its extension map with the sanitized copy; on a
failing call the caller's object is untouched. -/
theorem c9_witness :
    ((⟨"id", "rawId", "resp", "public-key",
       ⟨JsProp.undefVal, JsProp.undefVal⟩⟩ :
        AuthenticationResponseJSON).clientExtensionResults.prf
       = JsProp.undefVal ∧
     (⟨"id", "rawId", "resp", "public-key",
       ⟨JsProp.undefVal, JsProp.undefVal⟩⟩ :
        AuthenticationResponseJSON).clientExtensionResults.largeBlob
       = JsProp.undefVal ∧
     (⟨"id", "rawId", "resp", "public-key",
       ⟨JsProp.undefVal, JsProp.undefVal⟩⟩ :
        AuthenticationResponseJSON).clientExtensionResults
       = ((⟨⟨"id", "rawId", "resp", "public-key",
            ⟨JsProp.undefVal, JsProp.undefVal⟩⟩, some "hi", some "AQI="⟩ :
            SanitizedAuthenticationResponse)).sanitizedAuthenticationResponse.clientExtensionResults) ∧
    (⟨"i", "r", "x", "t", ⟨JsProp.absent, JsProp.absent⟩⟩ :
        AuthenticationResponseJSON)
      = ⟨"i", "r", "x", "t", ⟨JsProp.absent, JsProp.absent⟩⟩ :=
  ⟨(c9_sanitize_mutates_input_in_place
      ⟨"id", "rawId", "resp", "public-key",
       ⟨JsProp.value ⟨JsProp.value ⟨JsProp.value [1, 2]⟩⟩,
        JsProp.value ⟨JsProp.value [104, 105], JsProp.absent⟩⟩⟩ none).1
      _ _ (by decide),
   (c9_sanitize_mutates_input_in_place
      ⟨"i", "r", "x", "t", ⟨JsProp.absent, JsProp.absent⟩⟩
      (some ⟨false, true, true, none⟩)).2
      _ ⟨"Failed to read large blob from large-blob-holding credential",
         PasskeyErrorCodes.FAILED_READ⟩ (by decide)⟩

/-! ## Claim theorems: readLargeBlob, coin dispatch, xpub export -/

/-- C8: `readLargeBlob` fails with the `FAILED_READ` error kind if and only
if the ceremony's extension output lacks a largeBlob entry, the entry lacks
a blob, or the blob decodes to the empty string — an empty blob is treated
identically to a missing one; otherwise it returns the decoded non-empty
blob string. -/
theorem c8_read_large_blob_failed_read_characterization
    (cer : ClientExtensionResults) :
    ((∃ e, readLargeBlobFromExtensionResults cer = Except.error e ∧
        e.code = PasskeyErrorCodes.FAILED_READ) ↔
      (cer.largeBlob.isNullish = true ∨
       (∃ lb, cer.largeBlob = JsProp.value lb ∧ lb.blob.isNullish = true) ∨
       (∃ lb buf, cer.largeBlob = JsProp.value lb ∧
          lb.blob = JsProp.value buf ∧ arrayBufferToPlaintext buf = ""))) ∧
    (∀ lb buf, cer.largeBlob = JsProp.value lb → lb.blob = JsProp.value buf →
      arrayBufferToPlaintext buf ≠ "" →
      readLargeBlobFromExtensionResults cer
        = Except.ok (arrayBufferToPlaintext buf)) := by
  obtain ⟨prf, largeBlob⟩ := cer
  cases largeBlob with
  | value lb =>
      obtain ⟨blob, written⟩ := lb
      cases blob with
      | value buf =>
          by_cases hbs : arrayBufferToPlaintext buf = ""
          · refine ⟨⟨fun _ => ?_, fun _ => ?_⟩, fun lb' buf' h1 h2 h3 => ?_⟩
            · exact Or.inr (Or.inr
                ⟨⟨JsProp.value buf, written⟩, buf, rfl, rfl, hbs⟩)
            · exact ⟨⟨"Large blob decoded to empty string",
                PasskeyErrorCodes.FAILED_READ⟩,
                by simp [readLargeBlobFromExtensionResults, hbs], rfl⟩
            · cases h1
              cases h2
              exact absurd hbs h3
          · refine ⟨⟨fun he => ?_, fun hdisj => ?_⟩,
              fun lb' buf' h1 h2 h3 => ?_⟩
            · obtain ⟨e, he, -⟩ := he
              simp [readLargeBlobFromExtensionResults, hbs] at he
            · rcases hdisj with hn | ⟨lb', h1, h2⟩ | ⟨lb', buf', h1, h2, h3⟩
              · simp [JsProp.isNullish] at hn
              · cases h1
                simp [JsProp.isNullish] at h2
              · cases h1
                cases h2
                exact absurd h3 hbs
            · cases h1
              cases h2
              simp [readLargeBlobFromExtensionResults, hbs]
      | absent =>
          refine ⟨⟨fun _ => ?_, fun _ => ?_⟩, fun lb' buf' h1 h2 h3 => ?_⟩
          · exact Or.inr (Or.inl ⟨⟨JsProp.absent, written⟩, rfl, rfl⟩)
          · exact ⟨⟨"Large blob empty", PasskeyErrorCodes.FAILED_READ⟩,
              by simp [readLargeBlobFromExtensionResults], rfl⟩
          · cases h1
            simp at h2
      | nullVal =>
          refine ⟨⟨fun _ => ?_, fun _ => ?_⟩, fun lb' buf' h1 h2 h3 => ?_⟩
          · exact Or.inr (Or.inl ⟨⟨JsProp.nullVal, written⟩, rfl, rfl⟩)
          · exact ⟨⟨"Large blob empty", PasskeyErrorCodes.FAILED_READ⟩,
              by simp [readLargeBlobFromExtensionResults], rfl⟩
          · cases h1
            simp at h2
      | undefVal =>
          refine ⟨⟨fun _ => ?_, fun _ => ?_⟩, fun lb' buf' h1 h2 h3 => ?_⟩
          · exact Or.inr (Or.inl ⟨⟨JsProp.undefVal, written⟩, rfl, rfl⟩)
          · exact ⟨⟨"Large blob empty", PasskeyErrorCodes.FAILED_READ⟩,
              by simp [readLargeBlobFromExtensionResults], rfl⟩
          · cases h1
            simp at h2
  | absent =>
      refine ⟨⟨fun _ => Or.inl rfl, fun _ => ?_⟩, fun lb' buf' h1 _ _ => ?_⟩
      · exact ⟨⟨"Unable to read large blob", PasskeyErrorCodes.FAILED_READ⟩,
          by simp [readLargeBlobFromExtensionResults], rfl⟩
      · simp at h1
  | nullVal =>
      refine ⟨⟨fun _ => Or.inl rfl, fun _ => ?_⟩, fun lb' buf' h1 _ _ => ?_⟩
      · exact ⟨⟨"Unable to read large blob", PasskeyErrorCodes.FAILED_READ⟩,
          by simp [readLargeBlobFromExtensionResults], rfl⟩
      · simp at h1
  | undefVal =>
      refine ⟨⟨fun _ => Or.inl rfl, fun _ => ?_⟩, fun lb' buf' h1 _ _ => ?_⟩
      · exact ⟨⟨"Unable to read large blob", PasskeyErrorCodes.FAILED_READ⟩,
          by simp [readLargeBlobFromExtensionResults], rfl⟩
      · simp at h1

/-- C8 witness: a present, non-empty one-byte blob `[104]` reads back as the
non-empty string it decodes to. -/
theorem c8_witness :
    arrayBufferToPlaintext [104] ≠ "" ∧
    readLargeBlobFromExtensionResults
        ⟨JsProp.absent, JsProp.value ⟨JsProp.value [104], JsProp.absent⟩⟩
      = Except.ok (arrayBufferToPlaintext [104]) :=
  ⟨by decide,
   (c8_read_large_blob_failed_read_characterization
      ⟨JsProp.absent, JsProp.value ⟨JsProp.value [104], JsProp.absent⟩⟩).2
      ⟨JsProp.value [104], JsProp.absent⟩ [104] rfl rfl (by decide)⟩

/-- C2 counterexample: the claim requires the typed error `UnsupportedCoin`
for unknown coin identifiers, but at the concrete unknown identifier `DOGE`
`signTransaction` throws the bare `new Error()` of passkeyDevice.ts line 225
— a plain error with empty message and no error code; no `UnsupportedCoin`
member even exists in `PasskeyErrorCodes`. -/
theorem c2_counterexample :
    signTransactionDispatch "DOGE" = Except.error (JsError.plain "") := by
  decide

/-- C2 amended: for every coin identifier whose uppercased form is not one of
the known Bitcoin-family or Ethereum-family tags, `signTransaction` throws an
untyped bare `Error` (empty message, no machine-checkable error kind) — not
the typed `UnsupportedCoin` error the spec names. -/
theorem c2_unknown_coin_throws_untyped_error (coin : String)
    (h : jsToUpperCase coin ∉ knownCoinTags) :
    signTransactionDispatch coin = Except.error (JsError.plain "") := by
  simp only [knownCoinTags, List.mem_cons, List.not_mem_nil, or_false,
    not_or] at h
  rw [signTransactionDispatch, if_neg (by tauto), if_neg (by tauto)]

/-- C2 witness: `DOGE` is not a known tag and dispatch throws the bare
error. -/
theorem c2_witness :
    jsToUpperCase "DOGE" ∉ knownCoinTags ∧
    signTransactionDispatch "DOGE" = Except.error (JsError.plain "") :=
  ⟨by decide, c2_unknown_coin_throws_untyped_error "DOGE" (by decide)⟩

/-- C10: `exportXpub` checks the optional `hardenedKeyPathPurpose` for
JavaScript falsiness, so a purpose of `0` is treated exactly like an absent
purpose: the unscoped master node's neutered xpub is returned, not the xpub
of the hardened subtree `m/0'`. -/
theorem c10_purpose_zero_treated_as_absent :
    exportXpubSelection (some 0) = XpubSelection.masterNeutered ∧
    exportXpubSelection (some 0) = exportXpubSelection none ∧
    XpubSelection.masterNeutered ≠ XpubSelection.hardenedPurposeNeutered 0 := by
  decide

end YubikeySigning
